import Mathlib

/-!
Shallow embedding of the documentation-translation tool in
src/translate_docs.py, together with theorems settling the frozen
claims about it.  File contents are modelled as lists of characters
(Python str), dictionaries as association lists in insertion order,
and the translation backend as an explicit function returning
Option (failure = None = a raised exception inside the gateway).
-/

/-- Characters stripped by Python str.strip with no argument
(ASCII whitespace; the rare Unicode space classes are not used by any
input considered here). -/
def isPySpace (c : Char) : Bool :=
  c = ' ' || c = '\t' || c = '\n' || c = '\r' || c = '\x0b' || c = '\x0c'

/-- Python str.split(sep) for a one-character separator: splits on every
occurrence, keeping empty chunks, and yields one chunk even for the
empty string. -/
def splitChar (sep : Char) : List Char → List (List Char)
  | [] => [[]]
  | c :: rest =>
    let r := splitChar sep rest
    if c = sep then [] :: r
    else
      match r with
      | h :: t => (c :: h) :: t
      | [] => [[c]]

/-- Everything after the first occurrence of c, when c occurs:
models the test (c in line) together with line.split(c, 1)[1]. -/
def afterFirst (c : Char) : List Char → Option (List Char)
  | [] => none
  | a :: rest => if a = c then some rest else afterFirst c rest

/-- Everything after the first occurrence of the two-character sequence
x y, when it occurs: models ('//' in line) with line.split('//', 1)[1]. -/
def afterFirst2 (x y : Char) : List Char → Option (List Char)
  | a :: b :: rest =>
    if a = x && b = y then some rest
    else afterFirst2 x y (b :: rest)
  | _ => none

/-- Locates the first (leftmost) occurrence of the triple q q q and
returns the characters before it together with the characters after it.
This is the lazy search for the closing delimiter performed by the
non-greedy regex quantifier. -/
def findTriple (q : Char) : List Char → Option (List Char × List Char)
  | a :: b :: c :: rest =>
    if a = q && b = q && c = q then some ([], rest)
    else
      match findTriple q (b :: c :: rest) with
      | some (body, r) => some (a :: body, r)
      | none => none
  | _ => none

/-- One finditer scan for the Python docstring pattern
(three double quotes, a lazily matched possibly empty body, three double
quotes) or (three single quotes, a lazily matched non-empty body, three
single quotes), with DOTALL.  Matches are non-overlapping; after a match
the scan resumes after it, otherwise it advances one character.  The
fuel argument is always called with the length of the list, which bounds
the number of scan steps. -/
def scanDoc : Nat → List Char → List (List Char)
  | 0, _ => []
  | fuel + 1, a :: b :: c :: rest =>
    if a = '"' && b = '"' && c = '"' then
      match findTriple '"' rest with
      | some (body, r) =>
        (['"', '"', '"'] ++ body ++ ['"', '"', '"']) :: scanDoc fuel r
      | none => scanDoc fuel (b :: c :: rest)
    else if a = '\'' && b = '\'' && c = '\'' then
      match rest with
      | d :: rest2 =>
        match findTriple '\'' rest2 with
        | some (body, r) =>
          (['\'', '\'', '\''] ++ (d :: body) ++ ['\'', '\'', '\'']) :: scanDoc fuel r
        | none => scanDoc fuel (b :: c :: rest)
      | [] => scanDoc fuel (b :: c :: rest)
    else scanDoc fuel (b :: c :: rest)
  | _ + 1, _ => []

/-- Locates the first occurrence of the closing sequence star slash and
returns the characters before it and after it (lazy search of the block
comment regex). -/
def findStarSlash : List Char → Option (List Char × List Char)
  | a :: b :: rest =>
    if a = '*' && b = '/' then some ([], rest)
    else
      match findStarSlash (b :: rest) with
      | some (body, r) => some (a :: body, r)
      | none => none
  | _ => none

/-- One finditer scan for the C-style block comment pattern: slash star,
a lazily matched body, star slash. -/
def scanBlk : Nat → List Char → List (List Char)
  | 0, _ => []
  | fuel + 1, a :: b :: rest =>
    if a = '/' && b = '*' then
      match findStarSlash rest with
      | some (body, r) =>
        ('/' :: '*' :: (body ++ ['*', '/'])) :: scanBlk fuel r
      | none => scanBlk fuel (b :: rest)
    else scanBlk fuel (b :: rest)
  | _ + 1, _ => []

/-- True when the list has a character not stripped by str.strip, i.e.
when Python finds comment_part.strip() truthy. -/
def nonBlank (part : List Char) : Bool :=
  part.any (fun c => !isPySpace c)

/-- The docstring records of extract_comments_from_code for a .py file:
matches in discovery order, labelled docstring_i by enumerate, recorded
only when the match text is truthy (it always is, every match having at
least the six delimiter characters). -/
def pyDocstrings (content : List Char) : List (String × List Char) :=
  (scanDoc content.length content).enum.filterMap (fun im =>
    if im.2.isEmpty then none
    else some ("docstring_" ++ toString im.1, im.2))

/-- The line-comment records for a .py file: for each zero-based line
index i whose line contains a hash sign, the text after the first hash,
recorded (with the hash put back in front) only when it has
non-whitespace content. -/
def pyLineComments (content : List Char) : List (String × List Char) :=
  (splitChar '\n' content).enum.filterMap (fun il =>
    match afterFirst '#' il.2 with
    | some part =>
      if nonBlank part then some ("line_" ++ toString il.1, '#' :: part)
      else none
    | none => none)

/-- The block comment records for a C-family file, labelled block_i in
discovery order. -/
def cBlockComments (content : List Char) : List (String × List Char) :=
  (scanBlk content.length content).enum.map (fun im =>
    ("block_" ++ toString im.1, im.2))

/-- The line-comment records for a C-family file: text after the first
double slash on each line, with the double slash put back in front,
recorded only when the remainder has non-whitespace content. -/
def cLineComments (content : List Char) : List (String × List Char) :=
  (splitChar '\n' content).enum.filterMap (fun il =>
    match afterFirst2 '/' '/' il.2 with
    | some part =>
      if nonBlank part then some ("line_" ++ toString il.1, '/' :: '/' :: part)
      else none
    | none => none)

/-- extract_comments_from_code (src/translate_docs.py lines 91-130): a
dictionary, in insertion order, from positional label to the exact
original comment text, chosen by the extension's syntax family; every
other extension yields the empty mapping. -/
def extract_comments_from_code (content : List Char) (file_extension : String) :
    List (String × List Char) :=
  if [".py"].contains file_extension then
    pyDocstrings content ++ pyLineComments content
  else if [".js", ".java", ".c", ".cpp", ".h", ".cs", ".php", ".go", ".ts", ".swift"].contains file_extension then
    cBlockComments content ++ cLineComments content
  else []

/-- Python str.lower restricted to ASCII case mapping. -/
def pyLower (s : String) : String :=
  (s.data.map Char.toLower).asString

/-- translate_text (src/translate_docs.py lines 132-144).  The backend
argument stands for translator.translate followed by the .text
projection; none models any exception raised by it, caught by the
function, which then falls back to the original text.  Empty and
whitespace-only text short-circuits before the backend is consulted. -/
def translate_text (backend : List Char → String → Option (List Char))
    (text : List Char) (target_language : String) : List Char :=
  if text.all isPySpace then text
  else
    match backend text (pyLower target_language) with
    | some t => t
    | none => text

/-- translate_comments (src/translate_docs.py lines 146-158): translates
each extracted comment under its label; translate_text never fails, so
the per-comment exception handler is dead code. -/
def translate_comments (backend : List Char → String → Option (List Char))
    (comments : List (String × List Char)) (target_language : String) :
    List (String × List Char) :=
  comments.map (fun kc => (kc.1, translate_text backend kc.2 target_language))

/-- The part of a label after its first underscore, as Python
key.split(underscore)[1] computes it; the index is compared as a string,
never converted to a number. -/
def labelIndex (k : String) : List Char :=
  ((splitChar '_' k.data).drop 1).headD []

/-- Python string comparison: lexicographic on code points. -/
def strLt : List Char → List Char → Bool
  | [], [] => false
  | [], _ :: _ => true
  | _ :: _, [] => false
  | a :: as, b :: bs =>
    if a.toNat < b.toNat then true
    else if b.toNat < a.toNat then false
    else strLt as bs

/-- Stable insertion of a key into a list already sorted in descending
label-index order: the key goes after every earlier key whose index
compares greater or equal (Python sorted with reverse=True is stable). -/
def insertDesc (x : String) : List String → List String
  | [] => [x]
  | y :: l =>
    if strLt (labelIndex x) (labelIndex y) then y :: insertDesc x l
    else x :: y :: l

/-- sorted(keys, key=lambda k: k.split('_')[1], reverse=True): stable
sort of the labels in descending string order of the index part. -/
def sortKeysDesc (ks : List String) : List String :=
  ks.foldr insertDesc []

/-- Replacement loop of content.replace: when old is a prefix of the
remaining text, new is emitted and the scan resumes after old, otherwise
one character is copied.  The fuel is always the length of the text,
which bounds the number of steps because old is non-empty at every call
site. -/
def replAux (old new : List Char) : Nat → List Char → List Char
  | _, [] => []
  | 0, s => s
  | fuel + 1, c :: rest =>
    if old.isPrefixOf (c :: rest) then
      new ++ replAux old new fuel (List.drop old.length (c :: rest))
    else c :: replAux old new fuel rest

/-- Python str.replace(old, new): every non-overlapping occurrence of
old in s is replaced by new, scanning left to right; an empty old
inserts new before every character and at the end. -/
def pyReplace (s old new : List Char) : List Char :=
  if old.isEmpty then new ++ (s.map (fun c => c :: new)).flatten
  else replAux old new s.length s

/-- Bool-valued substring test: old occurs somewhere in s. -/
def occursIn (pat : List Char) : List Char → Bool
  | [] => pat.isEmpty
  | c :: rest => pat.isPrefixOf (c :: rest) || occursIn pat rest

/-- The fold of replace_comments_in_code over the sorted keys; none
models the KeyError that a label missing from the translated mapping
would raise, which the surrounding handler turns into returning the
untouched content. -/
def replaceFold (orig transl : List (String × List Char)) :
    List String → List Char → Option (List Char)
  | [], c => some c
  | k :: ks, c =>
    match List.lookup k orig, List.lookup k transl with
    | some o, some t => replaceFold orig transl ks (pyReplace c o t)
    | _, _ => none

/-- replace_comments_in_code (src/translate_docs.py lines 160-177):
keys are sorted by the string after their first underscore in reverse
order, then each original text is replaced everywhere by its
translation; any lookup failure returns the original content. -/
def replace_comments_in_code (content : List Char)
    (original_comments translated_comments : List (String × List Char)) :
    List Char :=
  match replaceFold original_comments translated_comments
      (sortKeysDesc (original_comments.map Prod.fst)) content with
  | some r => r
  | none => content

/-- The final path component, as pathlib's Path(p).name: empty segments
produced by repeated or trailing separators are ignored. -/
def pathName (p : String) : List Char :=
  ((splitChar '/' p.data).filter (fun s => !s.isEmpty)).getLastD []

/-- Index of the last occurrence of a character, Python str.rfind. -/
def rfindPos (c : Char) : List Char → Option Nat
  | [] => none
  | a :: rest =>
    match rfindPos c rest with
    | some i => some (i + 1)
    | none => if a = c then some 0 else none

/-- pathlib's suffix of a file name: from the last dot on, provided the
dot is neither the first nor the last character of the name. -/
def pySuffix (name : List Char) : List Char :=
  match rfindPos '.' name with
  | none => []
  | some i =>
    if 0 < i ∧ i < name.length - 1 then name.drop i else []

/-- Path(file_path).suffix.lower(), the extension key used by every
classifier in the script. -/
def path_suffix_lower (p : String) : String :=
  ((pySuffix (pathName p)).map Char.toLower).asString

/-- Documentation extensions (src/translate_docs.py line 59). -/
def doc_extensions : List String := [".md", ".txt", ".rst", ".adoc"]

/-- Code extensions (src/translate_docs.py line 68). -/
def code_extensions : List String :=
  [".py", ".js", ".java", ".c", ".cpp", ".h", ".cs", ".php", ".rb", ".go", ".ts", ".swift"]

/-- Extensions skipped outright (src/translate_docs.py line 82). -/
def skip_extensions : List String :=
  [".pyc", ".class", ".o", ".so", ".dll", ".exe", ".jpg", ".png", ".gif"]

/-- is_documentation_file (src/translate_docs.py lines 56-63). -/
def is_documentation_file (file_path : String) : Bool :=
  doc_extensions.contains (path_suffix_lower file_path)

/-- is_code_file (src/translate_docs.py lines 65-72). -/
def is_code_file (file_path : String) : Bool :=
  code_extensions.contains (path_suffix_lower file_path)

/-- Path(file_path).name.startswith a dot. -/
def name_starts_dot (p : String) : Bool :=
  match pathName p with
  | c :: _ => c = '.'
  | [] => false

/-- should_process_file (src/translate_docs.py lines 74-89): hidden
names and the deny-listed extensions are skipped, everything else is
processed exactly when it classifies as documentation or code. -/
def should_process_file (file_path : String) : Bool :=
  if name_starts_dot file_path then false
  else if skip_extensions.contains (path_suffix_lower file_path) then false
  else is_documentation_file file_path || is_code_file file_path

/-- process_code_file (src/translate_docs.py lines 192-211) at the
content level, the file already read: an empty extraction passes the
content through, otherwise each comment is translated and substituted
back. -/
def process_code_file (backend : List Char → String → Option (List Char))
    (content : List Char) (file_extension : String) (target_language : String) :
    List Char :=
  let comments := extract_comments_from_code content file_extension
  if comments.isEmpty then content
  else
    replace_comments_in_code content comments
      (translate_comments backend comments target_language)

/-- process_documentation_file (src/translate_docs.py lines 179-190) at
the content level: the whole content is translated as one unit. -/
def process_documentation_file (backend : List Char → String → Option (List Char))
    (content : List Char) (target_language : String) : List Char :=
  translate_text backend content target_language

/-- process_file (src/translate_docs.py lines 213-226) at the content
level: dispatch on the classification, any other file passing through
unchanged. -/
def process_file (backend : List Char → String → Option (List Char))
    (file_path : String) (content : List Char) (target_language : String) :
    List Char :=
  if is_documentation_file file_path then
    process_documentation_file backend content target_language
  else if is_code_file file_path then
    process_code_file backend content (path_suffix_lower file_path) target_language
  else content

/-- A directory name pruned by the walk in find_files_to_process
(src/translate_docs.py line 235): hidden, or in the exclusion set. -/
def excluded_dir (d : List Char) : Bool :=
  (match d with
   | c :: _ => c = '.'
   | [] => false)
  || d = "node_modules".data || d = "venv".data || d = ".git".data

/-- A relative path survives the walk when no directory component of it
is pruned. -/
def enumerated (p : String) : Bool :=
  !((splitChar '/' p.data).dropLast.any excluded_dir)

/-- find_files_to_process (src/translate_docs.py lines 228-246) over a
filesystem modelled as an explicit list of relative path and content
pairs: the walk yields the paths no component of which is pruned, then
should_process_file filters them. -/
def find_files_to_process (tree : List (String × List Char)) : List String :=
  tree.filterMap (fun pc =>
    if enumerated pc.1 && should_process_file pc.1 then some pc.1 else none)

/-- The body of the per-file loop of main (src/translate_docs.py lines
264-289) for one file: an enumerated, eligible file is processed, and
its translated content is written at the mirrored relative path unless
that content is empty, which the loop treats as a failure and skips. -/
def write_for (backend : List Char → String → Option (List Char))
    (target_language : String) (pc : String × List Char) :
    Option (String × List Char) :=
  if enumerated pc.1 && should_process_file pc.1 then
    if process_file backend pc.1 pc.2 target_language = [] then none
    else some (pc.1, process_file backend pc.1 pc.2 target_language)
  else none

/-- The output tree written by main (src/translate_docs.py lines
248-296): one entry per discovered file whose processing produced
non-empty content, at the mirrored relative path. -/
def main_writes (backend : List Char → String → Option (List Char))
    (tree : List (String × List Char)) (target_language : String) :
    List (String × List Char) :=
  tree.filterMap (write_for backend target_language)

/-- The empty pattern occurs in every text. -/
theorem occursIn_nil (s : List Char) : occursIn [] s = true := by
  cases s <;> rfl

/-- When the pattern does not occur in the text, the replacement scan
copies the text unchanged. -/
theorem replAux_of_not_occurs (old new : List Char) :
    ∀ (fuel : Nat) (s : List Char),
      occursIn old s = false → replAux old new fuel s = s := by
  intro fuel
  induction fuel with
  | zero => intro s h; cases s <;> rfl
  | succ n ih =>
    intro s h
    cases s with
    | nil => rfl
    | cons c rest =>
      have h2 : (old.isPrefixOf (c :: rest) || occursIn old rest) = false := h
      have hp : old.isPrefixOf (c :: rest) = false := by
        cases hq : old.isPrefixOf (c :: rest)
        · rfl
        · rw [hq] at h2; simp at h2
      have hr : occursIn old rest = false := by
        rw [hp] at h2; simpa using h2
      simp [replAux, hp, ih rest hr]

/-- Python replace is the identity when the pattern is absent. -/
theorem pyReplace_of_not_occurs (s old new : List Char)
    (h : occursIn old s = false) : pyReplace s old new = s := by
  have hne : old.isEmpty = false := by
    cases old with
    | nil => rw [occursIn_nil] at h; cases h
    | cons a l => rfl
  simp only [pyReplace, hne, Bool.false_eq_true, if_false]
  exact replAux_of_not_occurs old new s.length s h

/-- Claim C5 (confirmed): for every input text and target language, if
the translation backend fails, translate_text returns the original
input text unchanged, and the failure never reaches the caller. -/
theorem C5_backend_failure_identity
    (backend : List Char → String → Option (List Char))
    (text : List Char) (target_language : String)
    (h : backend text (pyLower target_language) = none) :
    translate_text backend text target_language = text := by
  cases hts : text.all isPySpace <;> simp [translate_text, hts, h]

/-- Witness for C5_backend_failure_identity at a concrete text, target
language and always-failing backend. -/
theorem C5_backend_failure_identity_witness :
    translate_text (fun _ _ => none) "hello world".data "German"
      = "hello world".data :=
  C5_backend_failure_identity (fun _ _ => none) "hello world".data "German" rfl

/-- Claim C6 (confirmed): translate_text on whitespace-only input (in
particular the empty string and three spaces) returns the input
unchanged, and the result does not depend on the backend, which is
therefore never consulted. -/
theorem C6_whitespace_short_circuit
    (b1 b2 : List Char → String → Option (List Char))
    (text : List Char) (lang : String)
    (h : text.all isPySpace = true) :
    translate_text b1 text lang = text ∧
      translate_text b1 text lang = translate_text b2 text lang := by
  constructor <;> simp [translate_text, h]

/-- Witness for C6_whitespace_short_circuit at the empty string and at
three spaces, with two observably different backends. -/
theorem C6_whitespace_short_circuit_witness :
    (translate_text (fun _ _ => some "X".data) "".data "fr" = "".data ∧
      translate_text (fun _ _ => some "X".data) "".data "fr"
        = translate_text (fun _ _ => none) "".data "fr") ∧
    (translate_text (fun _ _ => some "X".data) "   ".data "fr" = "   ".data ∧
      translate_text (fun _ _ => some "X".data) "   ".data "fr"
        = translate_text (fun _ _ => none) "   ".data "fr") :=
  ⟨C6_whitespace_short_circuit (fun _ _ => some "X".data) (fun _ _ => none)
      "".data "fr" rfl,
    C6_whitespace_short_circuit (fun _ _ => some "X".data) (fun _ _ => none)
      "   ".data "fr" rfl⟩

/-- Claim C7 (confirmed): when extraction yields the empty mapping,
process_code_file returns the original content unchanged. -/
theorem C7_empty_extraction_passthrough
    (backend : List Char → String → Option (List Char))
    (content : List Char) (file_extension target_language : String)
    (h : extract_comments_from_code content file_extension = []) :
    process_code_file backend content file_extension target_language
      = content := by
  simp [process_code_file, h]

/-- Witness for C7_empty_extraction_passthrough on a Python file with
no comments. -/
theorem C7_empty_extraction_passthrough_witness :
    process_code_file (fun t _ => some ('T' :: t)) "x = 1".data ".py" "de"
      = "x = 1".data :=
  C7_empty_extraction_passthrough (fun t _ => some ('T' :: t)) "x = 1".data
    ".py" "de" (by decide)

/-- Claim C9 (confirmed): a path with extension .rb is classified as a
code file, yet the extractor has no branch for .rb and yields the empty
mapping for every content, so Ruby files pass through with no comment
ever translated. -/
theorem C9_ruby_passthrough (file_path : String)
    (backend : List Char → String → Option (List Char))
    (content : List Char) (target_language : String)
    (h : path_suffix_lower file_path = ".rb") :
    is_code_file file_path = true ∧
      extract_comments_from_code content ".rb" = [] ∧
      process_code_file backend content (path_suffix_lower file_path)
          target_language = content := by
  refine ⟨?_, rfl, ?_⟩
  · unfold is_code_file
    rw [h]
    decide
  · rw [h]
    rfl

/-- Witness for C9_ruby_passthrough on a concrete Ruby file whose
comment line is left untouched. -/
theorem C9_ruby_passthrough_witness :
    is_code_file "lib/example.rb" = true ∧
      extract_comments_from_code "# hola\nputs 1".data ".rb" = [] ∧
      process_code_file (fun t _ => some ('T' :: t)) "# hola\nputs 1".data
          (path_suffix_lower "lib/example.rb") "es" = "# hola\nputs 1".data :=
  C9_ruby_passthrough "lib/example.rb" (fun t _ => some ('T' :: t))
    "# hola\nputs 1".data "es" (by decide)

/-- Claim C10 (confirmed): the docstring pattern treats the two
triple-quote styles asymmetrically: six consecutive double quotes are
extracted as one empty docstring record, while six consecutive single
quotes are not extracted at all, the single-quote branch requiring at
least one character between the delimiters. -/
theorem C10_triple_quote_asymmetry :
    extract_comments_from_code "\"\"\"\"\"\"".data ".py"
        = [("docstring_0", "\"\"\"\"\"\"".data)] ∧
      extract_comments_from_code (List.replicate 6 '\'') ".py" = [] := by decide

/-- Claim C1 (code bug): the replacement loop is meant to process
labels in descending order of their numeric positional index, but the
index is compared as a string, so the label line_9 is processed before
line_10 and an overlapping later comment is corrupted.  On an
eleven-line file whose two comments are extracted as line_9 and
line_10, the sort puts line_9 first, and replacing its text first
rewrites the inside of line_10's comment, which then is never found. -/
theorem C1_string_sort_order :
    extract_comments_from_code "0\n1\n2\n3\n4\n5\n6\n7\n8\na #A\nb #AB".data ".py"
        = [("line_9", "#A".data), ("line_10", "#AB".data)] ∧
      sortKeysDesc ["line_9", "line_10"] = ["line_9", "line_10"] ∧
      replace_comments_in_code "0\n1\n2\n3\n4\n5\n6\n7\n8\na #A\nb #AB".data
          [("line_9", "#A".data), ("line_10", "#AB".data)]
          [("line_9", "#NINE".data), ("line_10", "#TEN".data)]
        = "0\n1\n2\n3\n4\n5\n6\n7\n8\na #NINE\nb #NINEB".data ∧
      "0\n1\n2\n3\n4\n5\n6\n7\n8\na #NINE\nb #NINEB".data
        ≠ "0\n1\n2\n3\n4\n5\n6\n7\n8\na #NINE\nb #TEN".data := by decide

/-- Claim C2 counterexample: with two labels of byte-identical original
text, both occurrences receive the translation of line_1, the label
processed first in the replacement order, not the translation of
line_0, the label processed last, which the claim asserts. -/
theorem C2_last_translation_cex :
    replace_comments_in_code "u #same\nv #same".data
        [("line_0", "#same".data), ("line_1", "#same".data)]
        [("line_0", "#ZERO".data), ("line_1", "#ONE".data)]
      = "u #ONE\nv #ONE".data ∧
    replace_comments_in_code "u #same\nv #same".data
        [("line_0", "#same".data), ("line_1", "#same".data)]
        [("line_0", "#ZERO".data), ("line_1", "#ONE".data)]
      ≠ "u #ZERO\nv #ZERO".data := by decide

/-- Claim C2 (corrected): with two distinct labels of byte-identical
original text, the single replace-all pass of the label processed first
in the replacement order (line_1, whose index sorts first in descending
order) applies its translation to every occurrence; provided the
original text no longer occurs afterwards, the later pass for line_0 is
a no-op, so all duplicates end with the first-applied translation. -/
theorem C2_first_processed_translation (content o t0 t1 : List Char)
    (h : occursIn o (pyReplace content o t1) = false) :
    replace_comments_in_code content
        [("line_0", o), ("line_1", o)] [("line_0", t0), ("line_1", t1)]
      = pyReplace content o t1 := by
  have hs : sortKeysDesc (List.map Prod.fst [("line_0", o), ("line_1", o)])
      = ["line_1", "line_0"] := rfl
  unfold replace_comments_in_code
  rw [hs]
  have e1 : List.lookup "line_1" [("line_0", o), ("line_1", o)] = some o := rfl
  have e2 : List.lookup "line_1" [("line_0", t0), ("line_1", t1)] = some t1 := rfl
  have e3 : List.lookup "line_0" [("line_0", o), ("line_1", o)] = some o := rfl
  have e4 : List.lookup "line_0" [("line_0", t0), ("line_1", t1)] = some t0 := rfl
  simp only [replaceFold, e1, e2, e3, e4]
  rw [pyReplace_of_not_occurs (pyReplace content o t1) o t0 h]

/-- Witness for C2_first_processed_translation on a concrete file with
two identical comments: both come out with line_1's translation. -/
theorem C2_first_processed_translation_witness :
    replace_comments_in_code "u #a\nv #a".data
        [("line_0", "#a".data), ("line_1", "#a".data)]
        [("line_0", "#B0".data), ("line_1", "#B1".data)]
      = "u #B1\nv #B1".data :=
  (C2_first_processed_translation "u #a\nv #a".data "#a".data "#B0".data
      "#B1".data (by decide)).trans (by decide)

/-- Claim C3 counterexample: a line that contains a hash sign followed
only by nothing (or whitespace) yields no line-comment record at all,
so the claim's universal quantification over every line containing a
hash marker fails. -/
theorem C3_blank_comment_cex :
    ('#' ∈ "x = 1 #".data) ∧
      extract_comments_from_code "x = 1 #".data ".py" = [] := by decide

/-- Claim C3 (corrected): for every physical line whose text after the
first hash sign contains a non-whitespace character, script-style
extraction records a line-comment candidate consisting of the hash sign
followed by everything after it, labelled by the line's zero-based
index. -/
theorem C3_line_records (content line part : List Char) (i : Nat)
    (hline : (splitChar '\n' content)[i]? = some line)
    (hpart : afterFirst '#' line = some part)
    (hnb : nonBlank part = true) :
    ("line_" ++ toString i, '#' :: part)
      ∈ extract_comments_from_code content ".py" := by
  have he : extract_comments_from_code content ".py"
      = pyDocstrings content ++ pyLineComments content := rfl
  rw [he]
  refine List.mem_append.2 (Or.inr ?_)
  unfold pyLineComments
  refine List.mem_filterMap.2 ⟨(i, line), ?_, ?_⟩
  · exact List.mem_enum_iff_getElem?.2 hline
  · simp [hpart, hnb]

/-- Witness for C3_line_records on a two-line file whose second line
carries a comment. -/
theorem C3_line_records_witness :
    ("line_" ++ toString 1, '#' :: " c".data)
      ∈ extract_comments_from_code "a\nb # c".data ".py" :=
  C3_line_records "a\nb # c".data "b # c".data " c".data 1
    (by decide) (by decide) (by decide)

/-- Claim C4 counterexample: on the claim's own two-line input, with
the claim's own translations, substitution retains the hash marker that
was captured with each span, so the output is not the marker-less text
the claim asserts. -/
theorem C4_marker_dropped_cex :
    extract_comments_from_code "x = 1  # set x\ny = 2  # set y".data ".py"
        = [("line_0", "# set x".data), ("line_1", "# set y".data)] ∧
      replace_comments_in_code "x = 1  # set x\ny = 2  # set y".data
          (extract_comments_from_code "x = 1  # set x\ny = 2  # set y".data ".py")
          [("line_0", "# STUB_X".data), ("line_1", "# STUB_Y".data)]
        ≠ "x = 1  STUB_X\ny = 2  STUB_Y".data := by decide

/-- Claim C4 (corrected): the same input yields exactly two line-comment
records, and substituting the two translations yields the content with
each full captured span, hash marker included, replaced. -/
theorem C4_exact_output :
    extract_comments_from_code "x = 1  # set x\ny = 2  # set y".data ".py"
        = [("line_0", "# set x".data), ("line_1", "# set y".data)] ∧
      replace_comments_in_code "x = 1  # set x\ny = 2  # set y".data
          (extract_comments_from_code "x = 1  # set x\ny = 2  # set y".data ".py")
          [("line_0", "# STUB_X".data), ("line_1", "# STUB_Y".data)]
        = "x = 1  # STUB_X\ny = 2  # STUB_Y".data := by decide

/-- Characterization of the per-file loop body: it produces a write
exactly for an enumerated, eligible file whose processed content is
non-empty, and that write carries the file's own relative path. -/
theorem write_for_eq_some (backend : List Char → String → Option (List Char))
    (target_language : String) (pc pair : String × List Char) :
    write_for backend target_language pc = some pair ↔
      ((enumerated pc.1 && should_process_file pc.1) = true ∧
        process_file backend pc.1 pc.2 target_language ≠ [] ∧
        pair = (pc.1, process_file backend pc.1 pc.2 target_language)) := by
  unfold write_for
  by_cases hc : (enumerated pc.1 && should_process_file pc.1) = true
  · rw [if_pos hc]
    by_cases hn : process_file backend pc.1 pc.2 target_language = []
    · rw [if_pos hn]
      constructor
      · intro h; cases h
      · rintro ⟨-, hne, -⟩; exact absurd hn hne
    · rw [if_neg hn]
      constructor
      · intro h; exact ⟨hc, hn, (Option.some.inj h).symm⟩
      · rintro ⟨-, -, rfl⟩; rfl
  · rw [if_neg hc]
    constructor
    · intro h; cases h
    · rintro ⟨hcc, -, -⟩; exact absurd hcc hc

/-- The relative paths written by the run form a sublist of the input
tree's relative paths. -/
theorem main_writes_fst_sublist
    (backend : List Char → String → Option (List Char))
    (tree : List (String × List Char)) (target_language : String) :
    List.Sublist ((main_writes backend tree target_language).map Prod.fst)
      (tree.map Prod.fst) := by
  induction tree with
  | nil => simp [main_writes]
  | cons pc rest ih =>
    simp only [main_writes, List.filterMap_cons, List.map_cons] at ih ⊢
    cases hw : write_for backend target_language pc with
    | none => exact ih.cons pc.1
    | some pair =>
      have hp : pair.1 = pc.1 := by
        rw [((write_for_eq_some backend target_language pc pair).1 hw).2.2]
      simp only [List.map_cons, hp]
      exact ih.cons₂ pc.1

/-- Claim C8 (corrected): on an input tree with distinct relative
paths, the output paths are distinct, and a path is written exactly
when it belongs to an enumerated input file that classification
eligibility lets through and whose processed content is non-empty; in
particular files skipped by classification are never written, and every
write sits at the mirrored relative path of its input file. -/
theorem C8_mirrored_writes (backend : List Char → String → Option (List Char))
    (tree : List (String × List Char)) (target_language : String)
    (h : (tree.map Prod.fst).Nodup) :
    ((main_writes backend tree target_language).map Prod.fst).Nodup ∧
      ∀ p : String,
        p ∈ (main_writes backend tree target_language).map Prod.fst ↔
          ∃ c : List Char, (p, c) ∈ tree ∧
            (enumerated p && should_process_file p) = true ∧
            process_file backend p c target_language ≠ [] := by
  constructor
  · exact (main_writes_fst_sublist backend tree target_language).nodup h
  · intro p
    constructor
    · intro hp
      obtain ⟨pair, hpair, hfp⟩ := List.mem_map.1 hp
      obtain ⟨pc, hpc, hf⟩ := List.mem_filterMap.1 hpair
      obtain ⟨hc, hne, hpe⟩ :=
        (write_for_eq_some backend target_language pc pair).1 hf
      subst hfp
      rw [hpe]
      exact ⟨pc.2, hpc, hc, hne⟩
    · rintro ⟨c, hmem, hcond, hne⟩
      refine List.mem_map.2
        ⟨(p, process_file backend p c target_language), ?_, rfl⟩
      refine List.mem_filterMap.2 ⟨(p, c), hmem, ?_⟩
      exact (write_for_eq_some backend target_language (p, c) _).2
        ⟨hcond, hne, rfl⟩

/-- Witness for C8_mirrored_writes: on a two-file tree with one
eligible script and one deny-listed binary, the script's path is
written. -/
theorem C8_mirrored_writes_witness :
    "a.py" ∈ (main_writes (fun t _ => some ('T' :: t))
        [("a.py", "x = 1  # hi".data), ("b.exe", "z".data)] "de").map Prod.fst :=
  ((C8_mirrored_writes (fun t _ => some ('T' :: t))
      [("a.py", "x = 1  # hi".data), ("b.exe", "z".data)] "de" (by decide)).2
    "a.py").mpr ⟨"x = 1  # hi".data, by decide, by decide, by decide⟩

/-- Claim C8 counterexample: an empty Python file is enumerated and
classified eligible, yet the run writes no output for it, because the
loop treats empty translated content as a failure and skips the
write. -/
theorem C8_empty_file_no_output :
    find_files_to_process [("a.py", ([] : List Char))] = ["a.py"] ∧
      main_writes (fun t _ => some t) [("a.py", ([] : List Char))] "de"
        = [] := by decide
